import Mathlib

/- Verification development for src/extract_metadata.py.

   The script scans a folder of images, writes resized thumbnails, collects
   per-image metadata and lays the entries out on a paginated A4 PDF report.

   Modelling conventions, kept uniform below:
   - Python floats are modelled as exact rationals.
   - The filesystem and the decoding library are modelled by an environment
     mapping each filename to the data the script can observe about it:
     whether the path is a regular file, whether Image.open succeeds, the
     decoded pixel data, the stat result, the byte size and the EXIF tags.
   - datetime values are modelled by a plain record of calendar fields, and
     datetime.fromtimestamp by storing the resulting value directly.
   - The reportlab canvas is modelled by the list of placed blocks: for each
     entry the page index, the image rectangle and the text baselines. -/

/-- Module constants. One point is 1/72 inch; reportlab A4 is 210 mm by
297 mm where one mm is 72/25.4 points, so the page is 75600/127 by
106920/127 points. -/
def inch : ℚ := 72

def mm : ℚ := inch / 25.4

def PAGE_WIDTH : ℚ := 210 * mm

def PAGE_HEIGHT : ℚ := 297 * mm

def MARGIN : ℚ := 0.5 * inch

def MAX_THUMB_DIM : ℚ := 5 * inch

def LINE_HEIGHT : ℚ := 14

def ENTRY_SPACING : ℚ := 0.3 * inch

/-- PIL floors the requested thumbnail box, so the effective pixel bound is
the natural number 360 (math.floor of MAX_THUMB_DIM). -/
def maxThumbPx : ℕ := 360

/-- Model of a datetime value: the calendar fields the script reads. -/
structure DateTime where
  year : ℕ
  month : ℕ
  day : ℕ
  hour : ℕ
  minute : ℕ
  second : ℕ
deriving DecidableEq

/-- Splits a character list on a separator character; the result always has
one group more than the number of separators, like str.split on one char. -/
def splitOnChar (c : Char) : List Char → List (List Char)
  | [] => [[]]
  | x :: xs =>
    match splitOnChar c xs with
    | [] => [[]]
    | g :: gs => if x = c then [] :: g :: gs else (x :: g) :: gs

/-- Value of a list of decimal digit characters. -/
def natOfDigits (cs : List Char) : ℕ :=
  cs.foldl (fun a c => 10 * a + (c.toNat - 48)) 0

/-- One numeric strptime field: one to maxLen decimal digits. -/
def numField (cs : List Char) (maxLen : ℕ) : Option ℕ :=
  if 1 ≤ cs.length ∧ cs.length ≤ maxLen ∧ cs.all (fun c => c.isDigit) = true then
    some (natOfDigits cs)
  else none

def isLeap (y : ℕ) : Bool :=
  (y % 4 == 0 && y % 100 != 0) || y % 400 == 0

def daysInMonth (y m : ℕ) : ℕ :=
  if m = 2 then (if isLeap y then 29 else 28)
  else if m = 4 ∨ m = 6 ∨ m = 9 ∨ m = 11 then 30
  else 31

/-- Model of datetime.strptime with the fixed format of the script: four
colon and space separated numeric fields YYYY:MM:DD HH:MM:SS, with the
calendar validity checks the datetime constructor performs. Char.ofNat 32
is the space and Char.ofNat 58 the colon. -/
def strptimeYmdHMS (s : String) : Option DateTime :=
  match splitOnChar (Char.ofNat 32) s.data with
  | [dPart, tPart] =>
    match splitOnChar (Char.ofNat 58) dPart, splitOnChar (Char.ofNat 58) tPart with
    | [ys, mos, ds], [hs, mis, ss] =>
      match numField ys 4, numField mos 2, numField ds 2,
            numField hs 2, numField mis 2, numField ss 2 with
      | some y, some mo, some d, some h, some mi, some sec =>
        if 1 ≤ y ∧ y ≤ 9999 ∧ 1 ≤ mo ∧ mo ≤ 12 ∧ 1 ≤ d ∧ d ≤ daysInMonth y mo
            ∧ h ≤ 23 ∧ mi ≤ 59 ∧ sec ≤ 59 then
          some { year := y, month := mo, day := d, hour := h, minute := mi, second := sec }
        else none
      | _, _, _, _, _, _ => none
    | _, _ => none
  | _ => none

/-- Model of an os.stat result: st_birthtime exists only on some platforms,
st_ctime always does. -/
structure FileStat where
  birthtime : Option DateTime
  ctime : DateTime
deriving DecidableEq

/-- Mirrors get_file_creation_date: use st_birthtime, and on AttributeError
fall back to st_ctime. -/
def get_file_creation_date (st : FileStat) : DateTime :=
  match st.birthtime with
  | some t => t
  | none => st.ctime

/-- The EXIF tags the script reads, each as the string form of the tag
value, absent when exifread did not produce the tag. -/
structure ExifTags where
  dateTimeOriginal : Option String
  imageDateTime : Option String
  xResolution : Option String
  resolutionUnit : Option String
deriving DecidableEq

/-- Mirrors extract_creation_date: the Python expression
tags.get(EXIF DateTimeOriginal) or tags.get(Image DateTime) selects the
first present tag; if it parses the parsed value is returned, otherwise
the filesystem creation date. -/
def extract_creation_date (tags : ExifTags) (st : FileStat) : DateTime :=
  match tags.dateTimeOriginal.orElse (fun _ => tags.imageDateTime) with
  | some s =>
    match strptimeYmdHMS s with
    | some dt => dt
    | none => get_file_creation_date st
  | none => get_file_creation_date st

def pad2 (n : ℕ) : String :=
  if n < 10 then "0" ++ toString n else toString n

def monthName (m : ℕ) : String :=
  match m with
  | 1 => "January"
  | 2 => "February"
  | 3 => "March"
  | 4 => "April"
  | 5 => "May"
  | 6 => "June"
  | 7 => "July"
  | 8 => "August"
  | 9 => "September"
  | 10 => "October"
  | 11 => "November"
  | 12 => "December"
  | _ => ""

/-- Mirrors format_datetime with strftime format DD Month YYYY at HH:MM. -/
def format_datetime (dt : DateTime) : String :=
  pad2 dt.day ++ " " ++ monthName dt.month ++ " " ++ toString dt.year
    ++ " at " ++ pad2 dt.hour ++ ":" ++ pad2 dt.minute

/-- Rounds the fraction a/b to the nearest integer, ties to even, as the
two-decimal float formatting does. -/
def roundHalfEven (a b : ℕ) : ℕ :=
  let q := a / b
  let r := a % b
  if 2 * r < b then q
  else if b < 2 * r then q + 1
  else if q % 2 = 0 then q else q + 1

/-- Mirrors format_filesize: the byte count over 1024*1024, shown with two
decimals and the MB suffix. -/
def format_filesize (bytes_size : ℕ) : String :=
  let hundredths := roundHalfEven (bytes_size * 100) (1024 * 1024)
  toString (hundredths / 100) ++ "." ++ pad2 (hundredths % 100) ++ " MB"

/-- The data of a successfully decoded image: pixel size, the format name
and the optional dpi pair attached to img.info. -/
structure SrcImage where
  width : ℕ
  height : ℕ
  format : String
  dpiInfo : Option (ℕ × ℕ)
deriving DecidableEq

/-- Everything the script can observe about one filename in the folder.
readable is false when Image.open raises, image is the decoded content
when it succeeds. -/
structure FileData where
  isFile : Bool
  readable : Bool
  image : SrcImage
  stat : FileStat
  byteSize : ℕ
  tags : ExifTags
deriving DecidableEq

/-- The per-file record stored in the thumbs mapping: thumbnail path and
thumbnail pixel size. -/
structure ThumbInfo where
  path : String
  size : ℕ × ℕ
deriving DecidableEq

/-- Model of os.path.join for a directory and a plain filename. -/
def pathJoin (a b : String) : String := a ++ "/" ++ b

/-- Integer ceiling of a rational, written through Rat.floor so that it
stays executable. -/
def ratCeil (q : ℚ) : ℤ :=
  -Rat.floor (-q)

/-- Mirrors the round_aspect helper inside PIL Image.thumbnail: of floor
and ceiling of the number, take the one with the smaller key (the floor on
a tie, as min does), and never go below 1. -/
def round_aspect (q : ℚ) (key : ℤ → ℚ) : ℕ :=
  (max (if key (Rat.floor q) ≤ key (ratCeil q) then Rat.floor q else ratCeil q) 1).toNat

/-- Mirrors PIL Image.thumbnail with a square bound of maxThumbPx: keep the
size when it already fits, otherwise scale the larger side to the bound and
round the other side to the integer whose ratio to the bound is nearest to
the aspect ratio. -/
def thumbnailSize (w h : ℕ) : ℕ × ℕ :=
  if maxThumbPx ≥ w ∧ maxThumbPx ≥ h then (w, h)
  else
    if (w : ℚ) / (h : ℚ) ≤ (maxThumbPx : ℚ) / (maxThumbPx : ℚ) then
      (round_aspect ((maxThumbPx : ℚ) * ((w : ℚ) / (h : ℚ)))
         (fun n => |(w : ℚ) / (h : ℚ) - (n : ℚ) / (maxThumbPx : ℚ)|),
       maxThumbPx)
    else
      (maxThumbPx,
       round_aspect ((maxThumbPx : ℚ) / ((w : ℚ) / (h : ℚ)))
         (fun n => if n = 0 then 0 else |(w : ℚ) / (h : ℚ) - (maxThumbPx : ℚ) / (n : ℚ)|))

/-- The loop body of generate_thumbnails for one filename: skip paths that
are not regular files, skip files Image.open rejects, and otherwise record
the joined thumbnail path and the resized pixel size under the filename. -/
def thumbFor (env : String → FileData) (thumb_dir fname : String) :
    Option (String × ThumbInfo) :=
  if (env fname).isFile then
    if (env fname).readable then
      some (fname,
        { path := pathJoin thumb_dir fname,
          size := thumbnailSize (env fname).image.width (env fname).image.height })
    else none
  else none

/-- Mirrors generate_thumbnails: iterate the sorted folder listing and keep
the per-file records in that order. The listing stands for os.listdir,
whose entries are distinct names, and the Python dict keyed by those names
is modelled as the association list in insertion order. -/
def generate_thumbnails (env : String → FileData) (listing : List String)
    (thumb_dir : String) : List (String × ThumbInfo) :=
  (List.insertionSort (fun a b : String => a ≤ b) listing).filterMap (thumbFor env thumb_dir)

/-- One ImageEntry: the dict built by collect_metadata for one image. -/
structure Entry where
  filename : String
  doc_type : String
  file_size : String
  creation_date : String
  image_size : String
  dpi : String
  thumb_path : String
  thumb_size : ℕ × ℕ
deriving DecidableEq

/-- The loop body of collect_metadata for one mapping item: reopen the
original file and assemble the entry, with the dpi fallback chain of the
source (img.info dpi first, then the two resolution tags together, else
the Unknown marker). -/
def collectEntry (env : String → FileData) (fname : String) (thumb_info : ThumbInfo) :
    Entry :=
  let fd := env fname
  let img := fd.image
  { filename := fname
    doc_type := img.format
    file_size := format_filesize fd.byteSize
    creation_date := format_datetime (extract_creation_date fd.tags fd.stat)
    image_size := toString img.width ++ " x " ++ toString img.height
    dpi :=
      match img.dpiInfo with
      | some d => toString d.1 ++ " x " ++ toString d.2 ++ " dpi"
      | none =>
        match fd.tags.xResolution, fd.tags.resolutionUnit with
        | some xv, some uv => xv ++ " " ++ uv
        | _, _ => "Unknown"
    thumb_path := thumb_info.path
    thumb_size := thumb_info.size }

/-- Mirrors collect_metadata: one entry per mapping item, in mapping
order. -/
def collect_metadata (env : String → FileData) (thumbs : List (String × ThumbInfo)) :
    List Entry :=
  thumbs.map (fun p => collectEntry env p.1 p.2)

/-- The six text lines drawn under a thumbnail, in source order. -/
def entryLines (e : Entry) : List String :=
  ["File name: " ++ e.filename,
   "Document Type: " ++ e.doc_type,
   "File size: " ++ e.file_size,
   "Creation Date: " ++ e.creation_date,
   "Image size: " ++ e.image_size,
   "Image DPI: " ++ e.dpi]

/-- The needed_space expression of create_pdf_report: thumbnail height plus
six line heights plus the entry spacing. -/
def neededSpace (e : Entry) : ℚ :=
  (e.thumb_size.2 : ℚ) + 6 * LINE_HEIGHT + ENTRY_SPACING

/-- The text loop of create_pdf_report: draw each line at the running
text_y and lower it by LINE_HEIGHT; returns the drawn baselines with their
lines, and the final text_y. -/
def drawLines (y : ℚ) : List String → List (ℚ × String) × ℚ
  | [] => ([], y)
  | l :: ls =>
    let rest := drawLines (y - LINE_HEIGHT) ls
    ((y, l) :: rest.1, rest.2)

/-- The placed block for one entry: page index, image rectangle and the
text baselines, as drawn by create_pdf_report. -/
structure EntryLayout where
  page : ℕ
  imgX : ℚ
  imgTop : ℚ
  imgBottom : ℚ
  imgW : ℚ
  imgH : ℚ
  thumbPath : String
  texts : List (ℚ × String)
deriving DecidableEq, Inhabited

/-- The body of the entry loop of create_pdf_report: break the page when
the cursor is under MARGIN plus needed_space, draw the image with its top
at the cursor, draw the six lines below it, and leave the cursor one
ENTRY_SPACING under the final text_y. The state is the pair of current
page index and cursor. -/
def composeStep (st : ℕ × ℚ) (e : Entry) : (ℕ × ℚ) × EntryLayout :=
  let thumb_w : ℚ := (e.thumb_size.1 : ℚ)
  let thumb_h : ℚ := (e.thumb_size.2 : ℚ)
  let pg := if st.2 < MARGIN + neededSpace e then st.1 + 1 else st.1
  let y := if st.2 < MARGIN + neededSpace e then PAGE_HEIGHT - MARGIN else st.2
  let td := drawLines (y - thumb_h - LINE_HEIGHT) (entryLines e)
  ((pg, td.2 - ENTRY_SPACING),
   { page := pg
     imgX := MARGIN
     imgTop := y
     imgBottom := y - thumb_h
     imgW := thumb_w
     imgH := thumb_h
     thumbPath := e.thumb_path
     texts := td.1 })

/-- The entry loop of create_pdf_report, threading the page and cursor
state. -/
def composeAll (st : ℕ × ℚ) : List Entry → List EntryLayout
  | [] => []
  | e :: es => (composeStep st e).2 :: composeAll (composeStep st e).1 es

/-- Mirrors create_pdf_report: page 0, cursor at the top margin, then the
entry loop. -/
def create_pdf_report (entries : List Entry) : List EntryLayout :=
  composeAll (0, PAGE_HEIGHT - MARGIN) entries

/- Concrete fixtures used by counterexamples and witnesses. -/

/-- A parseable capture date string in the tag format. -/
def sGood : String := "2020:01:02 03:04:05"

/-- The datetime encoded by sGood. -/
def dtGood : DateTime :=
  { year := 2020, month := 1, day := 2, hour := 3, minute := 4, second := 5 }

/-- A tag value that does not parse in the tag format. -/
def sBad : String := "bad-date"

/-- A stat result with no birth time and a status-change time different
from dtGood. -/
def stX : FileStat :=
  { birthtime := none,
    ctime := { year := 1999, month := 5, day := 6, hour := 7, minute := 8, second := 9 } }

/-- Tags with an unparseable DateTimeOriginal and a parseable DateTime. -/
def tagsX : ExifTags :=
  { dateTimeOriginal := some sBad, imageDateTime := some sGood,
    xResolution := none, resolutionUnit := none }

/-- Tags with only a parseable DateTimeOriginal. -/
def tagsW : ExifTags :=
  { dateTimeOriginal := some sGood, imageDateTime := none,
    xResolution := none, resolutionUnit := none }

/-- C1, counterexample: an image whose DateTimeOriginal tag is present but
unparseable while its DateTime tag parses. A tag yields a parsed date, yet
the code reports the filesystem creation time, which differs from that
parsed date — against the claim that the filesystem time is used only when
no tag yields a parsed date. -/
theorem claim1_cex :
    tagsX.dateTimeOriginal = some sBad
    ∧ strptimeYmdHMS sBad = none
    ∧ tagsX.imageDateTime = some sGood
    ∧ strptimeYmdHMS sGood = some dtGood
    ∧ extract_creation_date tagsX stX = get_file_creation_date stX
    ∧ extract_creation_date tagsX stX ≠ dtGood := by
  decide

/-- C1, amended: the creation date is resolved from the selected tag —
DateTimeOriginal when present, else DateTime; when the selected tag parses
as YYYY:MM:DD HH:MM:SS its value is reported (in particular a parseable
capture-time tag beats a differing filesystem date), and when no tag is
present or the selected tag fails to parse, the filesystem creation time
(birth time where available, else status-change time) is used, without
consulting the other tag. -/
theorem claim1_amended :
    (∀ (tags : ExifTags) (st : FileStat) (s : String) (d : DateTime),
        tags.dateTimeOriginal = some s → strptimeYmdHMS s = some d →
        extract_creation_date tags st = d)
    ∧ (∀ (tags : ExifTags) (st : FileStat) (s : String) (d : DateTime),
        tags.dateTimeOriginal = none → tags.imageDateTime = some s →
        strptimeYmdHMS s = some d →
        extract_creation_date tags st = d)
    ∧ (∀ (tags : ExifTags) (st : FileStat),
        (∀ s, tags.dateTimeOriginal.orElse (fun _ => tags.imageDateTime) = some s →
            strptimeYmdHMS s = none) →
        extract_creation_date tags st = get_file_creation_date st) := by
  refine ⟨?_, ?_, ?_⟩
  · intro tags st s d h1 h2
    unfold extract_creation_date
    rw [h1]
    simp only [Option.orElse]
    rw [h2]
  · intro tags st s d h1 h2 h3
    unfold extract_creation_date
    rw [h1, h2]
    simp only [Option.orElse]
    rw [h3]
  · intro tags st hall
    unfold extract_creation_date
    rcases hso : tags.dateTimeOriginal.orElse (fun _ => tags.imageDateTime) with _ | s
    · rfl
    · simp only [hall s hso]

/-- C1, witness: a tag with a parseable DateTimeOriginal reports exactly
the parsed tag value, not the differing filesystem date of stX. -/
theorem claim1_witness : extract_creation_date tagsW stX = dtGood :=
  claim1_amended.1 tagsW stX sGood dtGood rfl (by decide)

/-- C9: when DateTimeOriginal is present but does not parse, the generic
DateTime tag is never consulted — whatever it holds — and the filesystem
creation time is reported. -/
theorem claim9 :
    ∀ (tags : ExifTags) (st : FileStat) (s : String),
      tags.dateTimeOriginal = some s → strptimeYmdHMS s = none →
      extract_creation_date tags st = get_file_creation_date st := by
  intro tags st s h1 h2
  unfold extract_creation_date
  rw [h1]
  simp only [Option.orElse]
  rw [h2]

/-- C9, witness: the fixture with an unparseable DateTimeOriginal and a
parseable DateTime reports the filesystem time. -/
theorem claim9_witness : extract_creation_date tagsX stX = get_file_creation_date stX :=
  claim9 tagsX stX sBad rfl (by decide)

/- Projections of the composer step, in closed form. -/

theorem composeStep_page (st : ℕ × ℚ) (e : Entry) :
    ((composeStep st e).2).page
      = if st.2 < MARGIN + neededSpace e then st.1 + 1 else st.1 := rfl

theorem composeStep_imgX (st : ℕ × ℚ) (e : Entry) :
    ((composeStep st e).2).imgX = MARGIN := rfl

theorem composeStep_imgTop (st : ℕ × ℚ) (e : Entry) :
    ((composeStep st e).2).imgTop
      = if st.2 < MARGIN + neededSpace e then PAGE_HEIGHT - MARGIN else st.2 := rfl

theorem composeStep_imgBottom (st : ℕ × ℚ) (e : Entry) :
    ((composeStep st e).2).imgBottom
      = (if st.2 < MARGIN + neededSpace e then PAGE_HEIGHT - MARGIN else st.2)
        - (e.thumb_size.2 : ℚ) := rfl

theorem composeStep_texts (st : ℕ × ℚ) (e : Entry) :
    ((composeStep st e).2).texts
      = (drawLines ((if st.2 < MARGIN + neededSpace e then PAGE_HEIGHT - MARGIN else st.2)
          - (e.thumb_size.2 : ℚ) - LINE_HEIGHT) (entryLines e)).1 := rfl

theorem composeStep_fst (st : ℕ × ℚ) (e : Entry) :
    (composeStep st e).1
      = (if st.2 < MARGIN + neededSpace e then st.1 + 1 else st.1,
         (if st.2 < MARGIN + neededSpace e then PAGE_HEIGHT - MARGIN else st.2)
           - (e.thumb_size.2 : ℚ) - 7 * LINE_HEIGHT - ENTRY_SPACING) := by
  simp only [composeStep, drawLines, entryLines, Prod.mk.injEq]
  exact ⟨trivial, by ring⟩

/-- C2: during composition a new page is started exactly when the
remaining space above the bottom margin, the cursor minus MARGIN, is less
than the needed space of the entry; on a page break the entry is drawn
with its image top at PAGE_HEIGHT minus MARGIN, and without a break it is
drawn at the unchanged cursor on the unchanged page. -/
theorem claim2 :
    ∀ (p : ℕ) (y : ℚ) (e : Entry),
      (((composeStep (p, y) e).2.page = p + 1) ↔ y - MARGIN < neededSpace e)
      ∧ (y - MARGIN < neededSpace e →
          (composeStep (p, y) e).2.imgTop = PAGE_HEIGHT - MARGIN
          ∧ (composeStep (p, y) e).2.page = p + 1)
      ∧ (¬ y - MARGIN < neededSpace e →
          (composeStep (p, y) e).2.imgTop = y ∧ (composeStep (p, y) e).2.page = p) := by
  intro p y e
  have hiff : y - MARGIN < neededSpace e ↔ y < MARGIN + neededSpace e := by
    constructor <;> intro h <;> linarith
  by_cases hc : y < MARGIN + neededSpace e
  · simp [composeStep_page, composeStep_imgTop, hc, hiff]
  · simp [composeStep_page, composeStep_imgTop, hc, hiff]

/-- An entry with a 100 by 100 pixel thumbnail, used at concrete layout
states. -/
def eC3 : Entry :=
  { filename := "a", doc_type := "JPEG", file_size := "1.00 MB",
    creation_date := "02 January 2020 at 03:04", image_size := "100 x 100",
    dpi := "Unknown", thumb_path := "t/a", thumb_size := (100, 100) }

/-- C2, witness: at a cursor of 100 points the remaining 64 points are
under the 205.6 points needed by eC3, so the entry goes to the top margin
of a fresh page. -/
theorem claim2_witness :
    (composeStep ((0 : ℕ), (100 : ℚ)) eC3).2.imgTop = PAGE_HEIGHT - MARGIN
    ∧ (composeStep ((0 : ℕ), (100 : ℚ)) eC3).2.page = 0 + 1 :=
  (claim2 0 100 eC3).2.1 (by norm_num [MARGIN, neededSpace, eC3, LINE_HEIGHT, ENTRY_SPACING, inch])

/-- C3, counterexample: on the first entry of the report, drawn with no
page break, the cursor drops by more than the computed needed space — the
claim that the drop equals the needed space fails at eC3. -/
theorem claim3_cex :
    (PAGE_HEIGHT - MARGIN) - (composeStep (0, PAGE_HEIGHT - MARGIN) eC3).1.2
      ≠ neededSpace eC3 := by
  have h : ¬ ((0, PAGE_HEIGHT - MARGIN).2 < MARGIN + neededSpace eC3) := by
    norm_num [MARGIN, PAGE_HEIGHT, mm, inch, neededSpace, eC3, LINE_HEIGHT, ENTRY_SPACING]
  rw [composeStep_fst]
  rw [if_neg h]
  norm_num [MARGIN, PAGE_HEIGHT, mm, inch, LINE_HEIGHT, ENTRY_SPACING, neededSpace, eC3]

/-- C3, amended: for an entry drawn without a page break the cursor drops
by the needed space plus one extra LINE_HEIGHT — the first baseline sits
one line height below the thumbnail, and the text loop lowers the cursor
once more after the sixth line. -/
theorem claim3_amended :
    ∀ (st : ℕ × ℚ) (e : Entry),
      ¬ st.2 < MARGIN + neededSpace e →
      st.2 - (composeStep st e).1.2 = neededSpace e + LINE_HEIGHT := by
  intro st e h
  rw [composeStep_fst]
  simp only [if_neg h]
  rw [neededSpace]
  ring

/-- C3, witness: at a cursor of 500 points eC3 fits, and the cursor drops
by the needed space plus LINE_HEIGHT. -/
theorem claim3_witness :
    (500 : ℚ) - (composeStep ((0 : ℕ), (500 : ℚ)) eC3).1.2 = neededSpace eC3 + LINE_HEIGHT :=
  claim3_amended (0, 500) eC3
    (by norm_num [MARGIN, neededSpace, eC3, LINE_HEIGHT, ENTRY_SPACING, inch])

/-- A placed block respects the page margins: the image starts at the left
margin, image bottom and all text baselines stay at or above the bottom
margin, and image top and baselines stay at or under the top margin. -/
def withinMargins (l : EntryLayout) : Prop :=
  l.imgX = MARGIN ∧ MARGIN ≤ l.imgBottom ∧ l.imgTop ≤ PAGE_HEIGHT - MARGIN
    ∧ ∀ t ∈ l.texts, MARGIN ≤ t.1 ∧ t.1 ≤ PAGE_HEIGHT - MARGIN

theorem drawLines_mem_bounds (y0 : ℚ) (e : Entry) :
    ∀ t ∈ (drawLines y0 (entryLines e)).1, y0 - 5 * LINE_HEIGHT ≤ t.1 ∧ t.1 ≤ y0 := by
  intro t ht
  have hLH : LINE_HEIGHT = 14 := rfl
  simp only [entryLines, drawLines, List.mem_cons, List.not_mem_nil, or_false] at ht
  rcases ht with h | h | h | h | h | h <;> subst h <;>
    exact ⟨by dsimp only; rw [hLH]; linarith, by dsimp only; linarith⟩

theorem page_fits (e : Entry) (hth : e.thumb_size.2 ≤ maxThumbPx) :
    MARGIN + neededSpace e ≤ PAGE_HEIGHT - MARGIN := by
  have hth2 : e.thumb_size.2 ≤ 360 := hth
  have h : (e.thumb_size.2 : ℚ) ≤ 360 := by exact_mod_cast hth2
  have hM : MARGIN = 36 := by norm_num [MARGIN, inch]
  have hP : PAGE_HEIGHT = 106920 / 127 := by norm_num [PAGE_HEIGHT, mm, inch]
  have hLH : LINE_HEIGHT = 14 := rfl
  have hES : ENTRY_SPACING = 108 / 5 := by norm_num [ENTRY_SPACING, inch]
  rw [neededSpace, hM, hP, hLH, hES]
  linarith

theorem composeAll_within :
    ∀ (es : List Entry) (st : ℕ × ℚ),
      st.2 ≤ PAGE_HEIGHT - MARGIN →
      (∀ e ∈ es, e.thumb_size.1 ≤ maxThumbPx ∧ e.thumb_size.2 ≤ maxThumbPx) →
      ∀ l ∈ composeAll st es, withinMargins l := by
  intro es
  induction es with
  | nil =>
    intro st _ _ l hl
    simp [composeAll] at hl
  | cons e es ih =>
    intro st hy hdims l hl
    have hM : MARGIN = 36 := by norm_num [MARGIN, inch]
    have hP : PAGE_HEIGHT = 106920 / 127 := by norm_num [PAGE_HEIGHT, mm, inch]
    have hLH : LINE_HEIGHT = 14 := rfl
    have hES : ENTRY_SPACING = 108 / 5 := by norm_num [ENTRY_SPACING, inch]
    have hthn : (0 : ℚ) ≤ (e.thumb_size.2 : ℚ) := Nat.cast_nonneg _
    have hth2 : e.thumb_size.2 ≤ 360 := (hdims e (List.mem_cons_self e es)).2
    have hth360 : (e.thumb_size.2 : ℚ) ≤ 360 := by exact_mod_cast hth2
    have hneed : neededSpace e = (e.thumb_size.2 : ℚ) + 6 * 14 + 108 / 5 := by
      rw [neededSpace, hLH, hES]
    have hy2 : st.2 ≤ 106920 / 127 - 36 := by rw [hP, hM] at hy; exact hy
    simp only [composeAll, List.mem_cons] at hl
    rcases hl with rfl | hl
    · by_cases hc : st.2 < MARGIN + neededSpace e
      · refine ⟨composeStep_imgX st e, ?_, ?_, ?_⟩
        · rw [composeStep_imgBottom, if_pos hc, hM, hP]
          linarith
        · rw [composeStep_imgTop, if_pos hc]
        · intro t ht
          rw [composeStep_texts, if_pos hc] at ht
          have hb := drawLines_mem_bounds _ e t ht
          rw [hLH, hM, hP] at hb
          rw [hM, hP]
          exact ⟨by linarith [hb.1], by linarith [hb.2]⟩
      · have hcge : MARGIN + neededSpace e ≤ st.2 := not_lt.mp hc
        rw [hneed, hM] at hcge
        refine ⟨composeStep_imgX st e, ?_, ?_, ?_⟩
        · rw [composeStep_imgBottom, if_neg hc, hM]
          linarith
        · rw [composeStep_imgTop, if_neg hc]
          exact hy
        · intro t ht
          rw [composeStep_texts, if_neg hc] at ht
          have hb := drawLines_mem_bounds _ e t ht
          rw [hLH] at hb
          rw [hM, hP]
          exact ⟨by linarith [hb.1], by linarith [hb.2]⟩
    · refine ih (composeStep st e).1 ?_
        (fun e2 he2 => hdims e2 (List.mem_cons_of_mem e he2)) l hl
      rw [composeStep_fst]
      show (if st.2 < MARGIN + neededSpace e then PAGE_HEIGHT - MARGIN else st.2)
          - (e.thumb_size.2 : ℚ) - 7 * LINE_HEIGHT - ENTRY_SPACING ≤ PAGE_HEIGHT - MARGIN
      by_cases hc : st.2 < MARGIN + neededSpace e
      · rw [if_pos hc, hLH, hES]
        linarith
      · rw [if_neg hc, hLH, hES, hM, hP]
        linarith

/-- C8: when every entry carries thumbnail dimensions within the
thumbnail-generation bound, every block of the report — image rectangle
and all six baselines — lies within the page margins. -/
theorem claim8 :
    ∀ entries : List Entry,
      (∀ e ∈ entries, e.thumb_size.1 ≤ maxThumbPx ∧ e.thumb_size.2 ≤ maxThumbPx) →
      ∀ l ∈ create_pdf_report entries, withinMargins l := by
  intro entries h
  exact composeAll_within entries (0, PAGE_HEIGHT - MARGIN) (le_refl _) h

/-- C8, witness: the single block produced for eC3 keeps its image bottom
at or above the bottom margin. -/
theorem claim8_witness : MARGIN ≤ ((create_pdf_report [eC3]).headI).imgBottom :=
  (claim8 [eC3] (by simp [eC3, maxThumbPx]) _
    (by simp [create_pdf_report, composeAll, List.headI])).2.1

/-- The text content of a placed block, in drawing order. -/
def layoutLines (l : EntryLayout) : List String := l.texts.map Prod.snd

theorem layoutLines_composeStep (st : ℕ × ℚ) (e : Entry) :
    layoutLines (composeStep st e).2 = entryLines e := rfl

theorem composeAll_lines :
    ∀ (es : List Entry) (st : ℕ × ℚ),
      (composeAll st es).map layoutLines = es.map entryLines := by
  intro es
  induction es with
  | nil => intro st; rfl
  | cons e es ih =>
    intro st
    simp only [composeAll, List.map_cons]
    rw [layoutLines_composeStep, ih]

/-- Unpacks a successful thumbFor result. -/
theorem thumbFor_some {env : String → FileData} {dir a : String} {p : String × ThumbInfo}
    (h : thumbFor env dir a = some p) :
    p.1 = a ∧ (env a).isFile = true ∧ (env a).readable = true
      ∧ p.2 = { path := pathJoin dir a,
                size := thumbnailSize (env a).image.width (env a).image.height } := by
  unfold thumbFor at h
  by_cases h1 : (env a).isFile = true
  · rw [if_pos h1] at h
    by_cases h2 : (env a).readable = true
    · rw [if_pos h2] at h
      have h3 := Option.some.inj h
      refine ⟨?_, h1, h2, ?_⟩
      · rw [← h3]
      · rw [← h3]
    · rw [if_neg h2] at h
      exact absurd h (by simp)
  · rw [if_neg h1] at h
    exact absurd h (by simp)

/-- The filenames kept by the thumbnail stage are exactly the listing
entries that are regular files and decode, in listing order. -/
theorem generate_fst (env : String → FileData) (dir : String) :
    ∀ l : List String,
      (l.filterMap (thumbFor env dir)).map Prod.fst
        = l.filter (fun fname => (env fname).isFile && (env fname).readable) := by
  intro l
  induction l with
  | nil => rfl
  | cons a l ih =>
    simp only [List.filterMap_cons, List.filter_cons]
    by_cases h1 : (env a).isFile = true <;> by_cases h2 : (env a).readable = true <;>
      simp [thumbFor, h1, h2, ih]

/-- The metadata stage reproduces the mapping keys as entry filenames, in
mapping order. -/
theorem collect_filenames (env : String → FileData) :
    ∀ thumbs : List (String × ThumbInfo),
      (collect_metadata env thumbs).map Entry.filename = thumbs.map Prod.fst := by
  intro thumbs
  simp only [collect_metadata, List.map_map]
  rfl

/-- C6: the thumbnail mapping keys are in strictly increasing lexicographic
order, the metadata stage emits entries whose filenames repeat those keys
in the same order, and the report draws one block per entry whose text is
that entry, in entry order. -/
theorem claim6 :
    ∀ (env : String → FileData) (listing : List String) (dir : String),
      listing.Nodup →
      ((generate_thumbnails env listing dir).map Prod.fst).Pairwise (fun a b => a < b)
      ∧ (collect_metadata env (generate_thumbnails env listing dir)).map Entry.filename
          = (generate_thumbnails env listing dir).map Prod.fst
      ∧ ∀ entries : List Entry,
          (create_pdf_report entries).map layoutLines = entries.map entryLines := by
  intro env listing dir hnd
  refine ⟨?_, collect_filenames env _, fun entries => composeAll_lines entries _⟩
  have hs : List.Pairwise (fun a b : String => a ≤ b)
      (List.insertionSort (fun a b : String => a ≤ b) listing) :=
    List.sorted_insertionSort _ listing
  have hperm := List.perm_insertionSort (fun a b : String => a ≤ b) listing
  have hnd2 : (List.insertionSort (fun a b : String => a ≤ b) listing).Nodup :=
    hperm.nodup_iff.mpr hnd
  have hlt : (List.insertionSort (fun a b : String => a ≤ b) listing).Pairwise
      (fun a b : String => a < b) :=
    (hs.and hnd2).imp (fun hab => lt_of_le_of_ne hab.1 hab.2)
  rw [generate_thumbnails, generate_fst]
  exact hlt.sublist (List.filter_sublist _)

/-- A filename and a directory name used at concrete inputs. -/
def nameA : String := "a"

def dirT : String := "t"

/-- A file visible as a regular decodable 4000 by 3000 JPEG with no dpi
info and no tags. -/
def fdDefault : FileData :=
  { isFile := true, readable := true,
    image := { width := 4000, height := 3000, format := "JPEG", dpiInfo := none },
    stat := stX, byteSize := 2097152,
    tags := { dateTimeOriginal := none, imageDateTime := none,
              xResolution := none, resolutionUnit := none } }

def envC4 : String → FileData := fun _ => fdDefault

/-- C6, witness: on the singleton listing the metadata stage reproduces the
mapping keys in order. -/
theorem claim6_witness :
    (collect_metadata envC4 (generate_thumbnails envC4 [nameA] dirT)).map Entry.filename
      = (generate_thumbnails envC4 [nameA] dirT).map Prod.fst :=
  (claim6 envC4 [nameA] dirT (by simp)).2.1

/-- Every placed block of the composer carries the text of one of the
entries. -/
theorem composeAll_mem_texts :
    ∀ (es : List Entry) (st : ℕ × ℚ) (l : EntryLayout),
      l ∈ composeAll st es → ∃ e ∈ es, layoutLines l = entryLines e := by
  intro es
  induction es with
  | nil =>
    intro st l hl
    simp [composeAll] at hl
  | cons e es ih =>
    intro st l hl
    simp only [composeAll, List.mem_cons] at hl
    rcases hl with rfl | hl
    · exact ⟨e, List.mem_cons_self e es, layoutLines_composeStep st e⟩
    · obtain ⟨e2, he2, hl2⟩ := ih (composeStep st e).1 l hl
      exact ⟨e2, List.mem_cons_of_mem e he2, hl2⟩

theorem strAppend_left_cancel {a b c : String} (h : a ++ b = a ++ c) : b = c := by
  have h2 := congrArg String.data h
  simp only [String.data_append] at h2
  exact String.ext (List.append_cancel_left h2)

/-- C7: a file that fails to decode is skipped silently — it contributes no
key to the thumbnail mapping, no entry to the metadata list, and no block
of the report names it. -/
theorem claim7 :
    ∀ (env : String → FileData) (listing : List String) (dir fname : String),
      (env fname).readable = false →
      (∀ p ∈ generate_thumbnails env listing dir, p.1 ≠ fname)
      ∧ (∀ e ∈ collect_metadata env (generate_thumbnails env listing dir),
          e.filename ≠ fname)
      ∧ (∀ l ∈ create_pdf_report
            (collect_metadata env (generate_thumbnails env listing dir)),
          (layoutLines l).head? ≠ some ("File name: " ++ fname)) := by
  intro env listing dir fname hbad
  have h1 : ∀ p ∈ generate_thumbnails env listing dir, p.1 ≠ fname := by
    intro p hp heq
    rw [generate_thumbnails] at hp
    obtain ⟨a, _, hfa⟩ := List.mem_filterMap.mp hp
    obtain ⟨hpa, _, hr, _⟩ := thumbFor_some hfa
    subst heq
    rw [hpa] at hbad
    simp [hbad] at hr
  have h2 : ∀ e ∈ collect_metadata env (generate_thumbnails env listing dir),
      e.filename ≠ fname := by
    intro e he
    rw [collect_metadata] at he
    obtain ⟨p, hp, hpe⟩ := List.mem_map.mp he
    rw [← hpe]
    show (collectEntry env p.1 p.2).filename ≠ fname
    have hpf : (collectEntry env p.1 p.2).filename = p.1 := rfl
    rw [hpf]
    exact h1 p hp
  refine ⟨h1, h2, ?_⟩
  intro l hl hhead
  obtain ⟨e, he, hle⟩ := composeAll_mem_texts _ _ l hl
  rw [hle] at hhead
  have hfirst : (entryLines e).head? = some ("File name: " ++ e.filename) := rfl
  rw [hfirst] at hhead
  exact h2 e he (strAppend_left_cancel (Option.some.inj hhead))

/-- A file whose decode fails. -/
def fdBad : FileData :=
  { fdDefault with readable := false }

def envBad : String → FileData := fun _ => fdBad

def tiAny : ThumbInfo := { path := pathJoin dirT nameA, size := (1, 1) }

/-- C7, witness: the undecodable file never appears as a thumbnail mapping
item. -/
theorem claim7_witness : ¬ ((nameA, tiAny) ∈ generate_thumbnails envBad [nameA] dirT) :=
  fun hmem => (claim7 envBad [nameA] dirT nameA rfl).1 (nameA, tiAny) hmem rfl

theorem ratFloor_eq (q : ℚ) : Rat.floor q = ⌊q⌋ := by
  rw [Rat.floor_def, Rat.floor_def']

theorem ratCeil_eq (q : ℚ) : ratCeil q = ⌈q⌉ := by
  rw [ratCeil, ratFloor_eq, Int.floor_neg, neg_neg]

/-- The rounded side of PIL round_aspect is within one of the exact
value, whatever the key: both candidates are, and the clamp to 1 only
applies under an exact value below 1. -/
theorem round_aspect_close (q : ℚ) (key : ℤ → ℚ) (hq : 0 < q) :
    |(round_aspect q key : ℚ) - q| ≤ 1 := by
  unfold round_aspect
  simp only [ratFloor_eq, ratCeil_eq]
  set c : ℤ := if key ⌊q⌋ ≤ key ⌈q⌉ then ⌊q⌋ else ⌈q⌉ with hc
  have hcase : c = ⌊q⌋ ∨ c = ⌈q⌉ := by
    rw [hc]
    by_cases hk : key ⌊q⌋ ≤ key ⌈q⌉
    · left; rw [if_pos hk]
    · right; rw [if_neg hk]
  have hfl : (0 : ℤ) ≤ ⌊q⌋ := Int.floor_nonneg.mpr hq.le
  have hce : (0 : ℤ) < ⌈q⌉ := Int.ceil_pos.mpr hq
  have hfl_le : (⌊q⌋ : ℚ) ≤ q := Int.floor_le q
  have hfl_gt : q < (⌊q⌋ : ℚ) + 1 := Int.lt_floor_add_one q
  have hce_ge : q ≤ (⌈q⌉ : ℚ) := Int.le_ceil q
  have hce_lt : (⌈q⌉ : ℚ) < q + 1 := Int.ceil_lt_add_one q
  have hm0 : (0 : ℤ) ≤ max c 1 := le_trans (by norm_num) (le_max_right c 1)
  have hcast : (((max c 1).toNat : ℕ) : ℚ) = ((max c 1 : ℤ) : ℚ) := by
    exact_mod_cast congrArg (fun z : ℤ => (z : ℚ)) (Int.toNat_of_nonneg hm0)
  rw [hcast]
  rcases hcase with hcf | hcc
  · by_cases h1 : 1 ≤ c
    · have hmax : max c 1 = c := max_eq_left h1
      rw [hmax, hcf]
      rw [abs_le]
      constructor <;> push_cast <;> linarith
    · have hc0 : c = 0 := by omega
      have hmax : max c 1 = 1 := by rw [hc0]; norm_num
      have hq1 : q < 1 := by
        rw [hcf] at hc0
        rw [hc0] at hfl_gt
        push_cast at hfl_gt
        linarith
      rw [hmax]
      rw [abs_le]
      constructor <;> push_cast <;> linarith
  · have h1 : 1 ≤ c := by omega
    have hmax : max c 1 = c := max_eq_left h1
    rw [hmax, hcc]
    rw [abs_le]
    constructor <;> push_cast <;> linarith

/-- The rounded side never exceeds an integer bound at least 1 that the
exact value respects. -/
theorem round_aspect_le (q : ℚ) (key : ℤ → ℚ) (hq : 0 < q) (B : ℕ) (hB : 1 ≤ B)
    (hqB : q ≤ (B : ℚ)) : round_aspect q key ≤ B := by
  unfold round_aspect
  simp only [ratFloor_eq, ratCeil_eq]
  set c : ℤ := if key ⌊q⌋ ≤ key ⌈q⌉ then ⌊q⌋ else ⌈q⌉ with hc
  have hcase : c = ⌊q⌋ ∨ c = ⌈q⌉ := by
    rw [hc]
    by_cases hk : key ⌊q⌋ ≤ key ⌈q⌉
    · left; rw [if_pos hk]
    · right; rw [if_neg hk]
  have hceB : ⌈q⌉ ≤ (B : ℤ) := Int.ceil_le.mpr (by exact_mod_cast hqB)
  have hcB : c ≤ (B : ℤ) := by
    rcases hcase with h | h
    · rw [h]; exact le_trans (Int.floor_le_ceil q) hceB
    · rw [h]; exact hceB
  have hmB : max c 1 ≤ (B : ℤ) := max_le hcB (by exact_mod_cast hB)
  exact Int.toNat_le.mpr hmB

/-- The thumbnail stays within the pixel bound on both sides and preserves
the aspect ratio up to one rounding unit: the cross products of the new
and the old sizes differ by at most the larger old side. -/
theorem thumbnailSize_spec (w h : ℕ) (hw : 0 < w) (hh : 0 < h) :
    (thumbnailSize w h).1 ≤ maxThumbPx ∧ (thumbnailSize w h).2 ≤ maxThumbPx
    ∧ |((thumbnailSize w h).1 : ℚ) * (h : ℚ) - ((thumbnailSize w h).2 : ℚ) * (w : ℚ)|
        ≤ max (w : ℚ) (h : ℚ) := by
  have hwq : (0 : ℚ) < (w : ℚ) := by exact_mod_cast hw
  have hhq : (0 : ℚ) < (h : ℚ) := by exact_mod_cast hh
  rw [thumbnailSize]
  by_cases h0 : maxThumbPx ≥ w ∧ maxThumbPx ≥ h
  · rw [if_pos h0]
    refine ⟨h0.1, h0.2, ?_⟩
    have hz : (w : ℚ) * (h : ℚ) - (h : ℚ) * (w : ℚ) = 0 := by ring
    dsimp only
    rw [hz, abs_zero]
    exact le_trans hwq.le (le_max_left _ _)
  · rw [if_neg h0]
    have hA : ((maxThumbPx : ℚ) / (maxThumbPx : ℚ)) = 1 := by norm_num [maxThumbPx]
    rw [hA]
    have hmq : (0 : ℚ) < (maxThumbPx : ℚ) := by norm_num [maxThumbPx]
    by_cases h1 : (w : ℚ) / (h : ℚ) ≤ 1
    · rw [if_pos h1]
      dsimp only
      set q : ℚ := (maxThumbPx : ℚ) * ((w : ℚ) / (h : ℚ)) with hqdef
      have hq0 : 0 < q := by
        rw [hqdef]
        exact mul_pos hmq (div_pos hwq hhq)
      have hqB : q ≤ (maxThumbPx : ℚ) := by
        rw [hqdef]
        exact mul_le_of_le_one_right hmq.le h1
      have ha_le := round_aspect_le q
        (fun n => |(w : ℚ) / (h : ℚ) - (n : ℚ) / (maxThumbPx : ℚ)|) hq0 maxThumbPx
        (by norm_num [maxThumbPx]) hqB
      have ha_close := round_aspect_close q
        (fun n => |(w : ℚ) / (h : ℚ) - (n : ℚ) / (maxThumbPx : ℚ)|) hq0
      refine ⟨ha_le, le_refl _, ?_⟩
      have hqh : q * (h : ℚ) = (maxThumbPx : ℚ) * (w : ℚ) := by
        rw [hqdef]
        field_simp
      set a : ℕ := round_aspect q (fun n => |(w : ℚ) / (h : ℚ) - (n : ℚ) / (maxThumbPx : ℚ)|)
      calc |(a : ℚ) * (h : ℚ) - (maxThumbPx : ℚ) * (w : ℚ)|
          = |((a : ℚ) - q) * (h : ℚ)| := by rw [sub_mul, hqh]
        _ = |(a : ℚ) - q| * |(h : ℚ)| := abs_mul _ _
        _ ≤ 1 * (h : ℚ) := by
            rw [abs_of_pos hhq]
            exact mul_le_mul_of_nonneg_right ha_close hhq.le
        _ = (h : ℚ) := one_mul _
        _ ≤ max (w : ℚ) (h : ℚ) := le_max_right _ _
    · rw [if_neg h1]
      dsimp only
      have h1q : 1 < (w : ℚ) / (h : ℚ) := not_le.mp h1
      set q : ℚ := (maxThumbPx : ℚ) / ((w : ℚ) / (h : ℚ)) with hqdef
      have hq0 : 0 < q := by
        rw [hqdef]
        exact div_pos hmq (lt_trans one_pos h1q)
      have hqB : q ≤ (maxThumbPx : ℚ) := by
        rw [hqdef]
        exact div_le_self hmq.le h1q.le
      have hb_le := round_aspect_le q
        (fun n => if n = 0 then 0 else |(w : ℚ) / (h : ℚ) - (maxThumbPx : ℚ) / (n : ℚ)|)
        hq0 maxThumbPx (by norm_num [maxThumbPx]) hqB
      have hb_close := round_aspect_close q
        (fun n => if n = 0 then 0 else |(w : ℚ) / (h : ℚ) - (maxThumbPx : ℚ) / (n : ℚ)|)
        hq0
      refine ⟨le_refl _, hb_le, ?_⟩
      have hqw : q * (w : ℚ) = (maxThumbPx : ℚ) * (h : ℚ) := by
        rw [hqdef]
        field_simp
      set b : ℕ := round_aspect q
        (fun n => if n = 0 then 0 else |(w : ℚ) / (h : ℚ) - (maxThumbPx : ℚ) / (n : ℚ)|)
      calc |(maxThumbPx : ℚ) * (h : ℚ) - (b : ℚ) * (w : ℚ)|
          = |(q - (b : ℚ)) * (w : ℚ)| := by rw [sub_mul, hqw]
        _ = |q - (b : ℚ)| * |(w : ℚ)| := abs_mul _ _
        _ ≤ 1 * (w : ℚ) := by
            rw [abs_of_pos hwq, abs_sub_comm]
            exact mul_le_mul_of_nonneg_right hb_close hwq.le
        _ = (w : ℚ) := one_mul _
        _ ≤ max (w : ℚ) (h : ℚ) := le_max_left _ _

/-- C4: every record kept by the thumbnail stage for a decodable image
with positive dimensions is saved under the original filename joined to
the destination directory, has no side over the fixed pixel bound, and
preserves the aspect ratio within rounding tolerance. -/
theorem claim4 :
    ∀ (env : String → FileData) (listing : List String) (dir fname : String)
      (ti : ThumbInfo),
      (fname, ti) ∈ generate_thumbnails env listing dir →
      0 < (env fname).image.width → 0 < (env fname).image.height →
      ti.path = pathJoin dir fname
      ∧ ti.size.1 ≤ maxThumbPx ∧ ti.size.2 ≤ maxThumbPx
      ∧ |(ti.size.1 : ℚ) * ((env fname).image.height : ℚ)
          - (ti.size.2 : ℚ) * ((env fname).image.width : ℚ)|
        ≤ max ((env fname).image.width : ℚ) ((env fname).image.height : ℚ) := by
  intro env listing dir fname ti hmem hw hh
  rw [generate_thumbnails] at hmem
  obtain ⟨a, _, hfa⟩ := List.mem_filterMap.mp hmem
  obtain ⟨hpa, _, _, hps⟩ := thumbFor_some hfa
  have haf : fname = a := hpa
  subst haf
  have hti : ti =
      ⟨pathJoin dir fname, thumbnailSize (env fname).image.width (env fname).image.height⟩ :=
    hps
  subst hti
  have hspec := thumbnailSize_spec (env fname).image.width (env fname).image.height hw hh
  exact ⟨rfl, hspec.1, hspec.2.1, hspec.2.2⟩

/-- The record the thumbnail stage computes for the 4000 by 3000 image. -/
def tiC4 : ThumbInfo :=
  { path := pathJoin dirT nameA, size := thumbnailSize 4000 3000 }

/-- C4, witness: the concrete record of the 4000 by 3000 image satisfies
the path, bound and aspect conclusions. -/
theorem claim4_witness :
    tiC4.path = pathJoin dirT nameA
    ∧ tiC4.size.1 ≤ maxThumbPx ∧ tiC4.size.2 ≤ maxThumbPx
    ∧ |(tiC4.size.1 : ℚ) * ((envC4 nameA).image.height : ℚ)
        - (tiC4.size.2 : ℚ) * ((envC4 nameA).image.width : ℚ)|
      ≤ max ((envC4 nameA).image.width : ℚ) ((envC4 nameA).image.height : ℚ) :=
  claim4 envC4 [nameA] dirT nameA tiC4 (List.mem_singleton.mpr rfl)
    (by norm_num [envC4, fdDefault]) (by norm_num [envC4, fdDefault])

/-- C5: the dpi descriptor prefers the resolution attached to the decoded
image; with none, both resolution tags together form the fallback text;
with neither source present the descriptor is exactly Unknown. -/
theorem claim5 :
    (∀ (env : String → FileData) (fname : String) (ti : ThumbInfo) (a b : ℕ),
        (env fname).image.dpiInfo = some (a, b) →
        (collectEntry env fname ti).dpi = toString a ++ " x " ++ toString b ++ " dpi")
    ∧ (∀ (env : String → FileData) (fname : String) (ti : ThumbInfo) (xv uv : String),
        (env fname).image.dpiInfo = none →
        (env fname).tags.xResolution = some xv →
        (env fname).tags.resolutionUnit = some uv →
        (collectEntry env fname ti).dpi = xv ++ " " ++ uv)
    ∧ (∀ (env : String → FileData) (fname : String) (ti : ThumbInfo),
        (env fname).image.dpiInfo = none →
        (env fname).tags.xResolution = none →
        (env fname).tags.resolutionUnit = none →
        (collectEntry env fname ti).dpi = "Unknown") := by
  refine ⟨?_, ?_, ?_⟩
  · intro env fname ti a b hd
    simp [collectEntry, hd]
  · intro env fname ti xv uv hd h1 h2
    simp [collectEntry, hd, h1, h2]
  · intro env fname ti hd h1 h2
    simp [collectEntry, hd, h1, h2]

/-- C5, witness: the fixture with no dpi info and no resolution tags
reports exactly Unknown. -/
theorem claim5_witness : (collectEntry envC4 nameA tiAny).dpi = "Unknown" :=
  claim5.2.2 envC4 nameA tiAny rfl rfl rfl

/-- C10: with no dpi info on the decoded image, a single present
resolution tag does not trigger the tag fallback — either lone tag still
reports Unknown. -/
theorem claim10 :
    (∀ (env : String → FileData) (fname : String) (ti : ThumbInfo) (xv : String),
        (env fname).image.dpiInfo = none →
        (env fname).tags.xResolution = some xv →
        (env fname).tags.resolutionUnit = none →
        (collectEntry env fname ti).dpi = "Unknown")
    ∧ (∀ (env : String → FileData) (fname : String) (ti : ThumbInfo) (uv : String),
        (env fname).image.dpiInfo = none →
        (env fname).tags.xResolution = none →
        (env fname).tags.resolutionUnit = some uv →
        (collectEntry env fname ti).dpi = "Unknown") := by
  refine ⟨?_, ?_⟩
  · intro env fname ti xv hd h1 h2
    simp [collectEntry, hd, h1, h2]
  · intro env fname ti uv hd h1 h2
    simp [collectEntry, hd, h1, h2]

/-- The text form of a resolution tag value. -/
def xv72 : String := "72"

/-- A file carrying only the XResolution tag, with no attached dpi info
and no unit tag. -/
def fdC10 : FileData :=
  { fdDefault with
    tags := { dateTimeOriginal := none, imageDateTime := none,
              xResolution := some xv72, resolutionUnit := none } }

def envC10 : String → FileData := fun _ => fdC10

/-- C10, witness: the lone XResolution tag still reports Unknown. -/
theorem claim10_witness : (collectEntry envC10 nameA tiAny).dpi = "Unknown" :=
  claim10.1 envC10 nameA tiAny xv72 rfl rfl rfl
